import Mathlib

/-!
Verification of the `useForm` React hook (src/src/hooks/useForm.ts) against its
natural-language specification.

The hook is a single-instance form-state store.  We shallow-embed it as pure
Lean functions on an explicit `FormState` record:

* JavaScript objects used as string-keyed records (`values`, `errors`,
  `touched`) become association lists whose update operation `setKey` mirrors
  the object-spread `{ ...m, [k]: v }` (replace in place, or append).
* The Zod schema is an opaque collaborator: a function from a values object to
  a `ParseResult` — success, a structured `ZodError` carrying an ordered list
  of issues (each with a `path` of string segments and a `message`), or any
  other thrown failure (`otherError`).  This mirrors the spec's collaborator
  contract `parse(value) → value | raises with ordered list of {path, message}`.
* The asynchronous submit callback is modelled by its observable outcome
  (`SubmitOutcome`): it either resolves, or rejects with an `Error` object
  carrying a message, or rejects with a non-`Error` value.  `handleSubmit`
  is embedded as one atomic state transformer (the single-threaded event-loop
  model of the spec), returning the final state plus whether the callback was
  invoked.
* JavaScript truthiness of an error entry (`!!error`) becomes `truthy`:
  `undefined` and the empty string are falsy, every other string is truthy.
-/

namespace UseForm

/-- JavaScript number as observed by this hook: either NaN or a finite
rational produced by `Number(string)` on a decimal literal. -/
inductive JsNumber where
  | nan
  | rat (q : ℚ)
deriving DecidableEq, Repr

/-- The values a form field can hold in the scenarios the spec covers:
strings (text inputs), numbers (numeric inputs) and booleans (checkboxes). -/
inductive JsValue where
  | str (s : String)
  | num (n : JsNumber)
  | bool (b : Bool)
deriving DecidableEq, Repr

/-- `m.find(k)`-style lookup on a string-keyed association list: first
binding wins, `none` when the key is missing. -/
def getKey {α : Type} (m : List (String × α)) (k : String) : Option α :=
  (m.find? (fun p => p.1 == k)).map (fun p => p.2)

/-- The object spread `{ ...m, [k]: v }`: replaces the binding for `k` in
place when present, otherwise appends it. -/
def setKey {α : Type} : List (String × α) → String → α → List (String × α)
  | [], k, v => [(k, v)]
  | (k', v') :: rest, k, v =>
    if k' == k then (k, v) :: rest else (k', v') :: setKey rest k v

/-- Reading a property of a JavaScript object whose stored value may itself
be `undefined`: a missing key and a key bound to `undefined` both read as
`undefined` (`none`). -/
def jsGet (m : List (String × Option String)) (k : String) : Option String :=
  match getKey m k with
  | some v => v
  | none => none

/-- One entry of `ZodError.errors`: a path of key segments and a message. -/
structure ZodIssue where
  path : List String
  message : String
deriving DecidableEq, Repr

/-- Outcome of `schema.parse(values)`: success, a `ZodError` with its ordered
issue list, or any non-`ZodError` throw. -/
inductive ParseResult where
  | ok
  | zodError (issues : List ZodIssue)
  | otherError
deriving DecidableEq, Repr

/-- The opaque schema collaborator. -/
def Schema : Type := List (String × JsValue) → ParseResult

/-- A value thrown by the submit callback: an `Error` object exposing a
`message`, or any non-`Error` value. -/
inductive JsError where
  | errObj (message : String)
  | nonError
deriving DecidableEq, Repr

/-- Observable outcome of one invocation of the async submit callback. -/
inductive SubmitOutcome where
  | success
  | failure (e : JsError)
deriving DecidableEq, Repr

/-- `FormState<T>` from src/unnamed/part_002 (types/forms.ts): values,
per-field error messages (a binding to `none` models a key explicitly set to
`undefined`), per-field touched flags, and the submission bookkeeping. -/
structure FormState where
  values : List (String × JsValue)
  errors : List (String × Option String)
  touched : List (String × Bool)
  isSubmitting : Bool
  isValid : Bool
  submitCount : Nat
  submitError : Option String
deriving DecidableEq, Repr

/-- `UseFormConfig<T>`: construction-time configuration.  The submit callback
is modelled by its outcome; `none` means no callback was configured. -/
structure UseFormConfig where
  initialValues : List (String × JsValue)
  validationSchema : Option Schema
  onSubmit : Option SubmitOutcome

/-- The state `useState` is initialised with (useForm.ts lines 17–25). -/
def initialFormState (cfg : UseFormConfig) : FormState where
  values := cfg.initialValues
  errors := []
  touched := []
  isSubmitting := false
  isValid := true
  submitCount := 0
  submitError := none

/-- JavaScript truthiness of an error entry (`!!error`): `undefined` and the
empty string are falsy. -/
def truthy : Option String → Bool
  | none => false
  | some s => s != ""

/-- Result record of `validateWithSchema`. -/
structure ValidationResult where
  isValid : Bool
  fieldErrors : List (String × Option String)
deriving DecidableEq, Repr

/-- `validateWithSchema` (useForm.ts lines 40–63).  On a `ZodError` it walks
`error.errors` in order with `fieldErrors[path] = err.message` guarded by the
truthiness of `path = err.path[0]` (an empty or missing leading segment is
skipped); the object assignment means a later issue for the same leading
segment overwrites an earlier one.  A non-`ZodError` throw yields
`{ isValid: false, fieldErrors: {} }`. -/
def validateWithSchema (schema : Option Schema) (values : List (String × JsValue)) :
    ValidationResult :=
  match schema with
  | none => ⟨true, []⟩
  | some sch =>
    match sch values with
    | .ok => ⟨true, []⟩
    | .zodError issues =>
      ⟨false,
        issues.foldl
          (fun acc err =>
            match err.path.head? with
            | some p => if p == "" then acc else setKey acc p (some err.message)
            | none => acc)
          []⟩
    | .otherError => ⟨false, []⟩

/-- `validateForm` (useForm.ts lines 69–79): revalidates the current values,
replaces `errors` wholesale and sets `isValid`; returns the validity. -/
def validateForm (schema : Option Schema) (prev : FormState) : FormState × Bool :=
  ({ prev with
      errors := (validateWithSchema schema prev.values).fieldErrors
      isValid := (validateWithSchema schema prev.values).isValid },
   (validateWithSchema schema prev.values).isValid)

/-- `setFieldValue` (useForm.ts lines 107–151).  With a schema configured it
parses the updated values object: on success it clears this field's error (a
binding to `undefined`) and derives `isValid` from the whole updated error
mapping; on a `ZodError` it takes the first issue whose `path[0]` strictly
equals the field — `...?.message || undefined` collapses an empty message to
`undefined` — touching no other field's entry and forcing `isValid := false`;
on any other throw (and when no schema is configured) only `values` changes. -/
def setFieldValue (schema : Option Schema) (prev : FormState) (field : String)
    (value : JsValue) : FormState :=
  match schema with
  | none => { prev with values := setKey prev.values field value }
  | some sch =>
    match sch (setKey prev.values field value) with
    | .ok =>
      { prev with
          values := setKey prev.values field value
          errors := setKey prev.errors field none
          isValid := !((setKey prev.errors field none).any (fun p => truthy p.2)) }
    | .zodError issues =>
      { prev with
          values := setKey prev.values field value
          errors :=
            setKey prev.errors field
              (match issues.find? (fun err => err.path.head? == some field) with
               | some err => if err.message == "" then none else some err.message
               | none => none)
          isValid := false }
    | .otherError => { prev with values := setKey prev.values field value }

/-- Digit string to natural number, most significant digit first. -/
def digitsToNat (cs : List Char) : Nat :=
  cs.foldl (fun a c => a * 10 + (c.toNat - 48)) 0

/-- The JavaScript builtin `Number(string)`, modelled on the inputs this hook
can feed it: an optional minus sign followed by a decimal literal (digits with
an optional fractional part) parses to the corresponding rational; every other
nonempty string parses to NaN.  (`handleChange` never applies it to `""`.) -/
def parseJsNumber (s : String) : JsNumber :=
  let neg : Bool := s.startsWith "-"
  let body : String := if neg then s.drop 1 else s
  let signed : ℚ → JsNumber := fun q => .rat (if neg then -q else q)
  match body.split (fun c => c == '.') with
  | [ip] =>
    if ip ≠ "" ∧ ip.toList.all Char.isDigit then
      signed (digitsToNat ip.toList : ℚ)
    else .nan
  | [ip, fp] =>
    if (ip ≠ "" ∨ fp ≠ "") ∧ ip.toList.all Char.isDigit ∧ fp.toList.all Char.isDigit then
      signed ((digitsToNat ip.toList : ℚ) +
        (digitsToNat fp.toList : ℚ) / ((10 : ℚ) ^ fp.length))
    else .nan
  | _ => .nan

/-- The fields `handleChange` destructures from `e.target`: the input's
`name`, its raw string `value`, its `type` attribute, and (for checkboxes)
its `checked` state. -/
structure ChangeEvent where
  name : String
  value : String
  type : String
  checked : Bool
deriving DecidableEq, Repr

/-- The coercion `handleChange` performs before delegating (useForm.ts lines
90–97): checkbox → the boolean `checked`; number → `""` stays the empty
string, anything else goes through `Number(value)`; otherwise the raw string. -/
def coerceChangeValue (e : ChangeEvent) : JsValue :=
  if e.type == "checkbox" then .bool e.checked
  else if e.type == "number" then
    (if e.value == "" then .str "" else .num (parseJsNumber e.value))
  else .str e.value

/-- `handleChange` (useForm.ts lines 84–102): coerce, then delegate to
`setFieldValue` under the event's `name`. -/
def handleChange (schema : Option Schema) (prev : FormState) (e : ChangeEvent) :
    FormState :=
  setFieldValue schema prev e.name (coerceChangeValue e)

/-- `setFieldTouched` (useForm.ts lines 171–176). -/
def setFieldTouched (prev : FormState) (field : String) (isTouched : Bool) : FormState :=
  { prev with touched := setKey prev.touched field isTouched }

/-- `handleBlur` (useForm.ts lines 156–166). -/
def handleBlur (prev : FormState) (name : String) : FormState :=
  setFieldTouched prev name true

/-- `setValues` (useForm.ts lines 181–186): shallow merge into `values`. -/
def setValues (prev : FormState) (vs : List (String × JsValue)) : FormState :=
  { prev with values := vs.foldl (fun acc p => setKey acc p.1 p.2) prev.values }

/-- `resetForm` (useForm.ts lines 191–201): rebuilds the whole state from the
configuration's initial values, ignoring the previous state entirely. -/
def resetForm (cfg : UseFormConfig) (_prev : FormState) : FormState where
  values := cfg.initialValues
  errors := []
  touched := []
  isSubmitting := false
  isValid := true
  submitCount := 0
  submitError := none

/-- `Object.keys(prev.values).reduce((acc, key) => ({ ...acc, [key]: true }), {})`
from useForm.ts lines 215–218. -/
def markAllTouched (values : List (String × JsValue)) : List (String × Bool) :=
  values.foldl (fun acc p => setKey acc p.1 true) []

/-- `error instanceof Error ? error.message : "Form submission failed"`
(useForm.ts line 245). -/
def errorMessage : JsError → String
  | .errObj m => m
  | .nonError => "Form submission failed"

/-- `setFormState(prev => ({ ...prev, isSubmitting: true, submitError: undefined }))`
(useForm.ts lines 228–232). -/
def startSubmitting (s : FormState) : FormState :=
  { s with isSubmitting := true, submitError := none }

/-- The success path after the awaited callback (useForm.ts lines 236–239). -/
def finishSuccess (s : FormState) : FormState :=
  { s with isSubmitting := false }

/-- The catch block around the awaited callback (useForm.ts lines 240–247). -/
def finishFailure (s : FormState) (e : JsError) : FormState :=
  { s with isSubmitting := false, submitError := some (errorMessage e) }

/-- Result of one `handleSubmit` run: final state, plus whether the submit
callback was invoked. -/
structure SubmitResult where
  state : FormState
  callbackInvoked : Bool
deriving DecidableEq, Repr

/-- The tail of `handleSubmit` after validation (useForm.ts lines 221–247):
`if (!isValid || !onSubmitRef.current) return;`, otherwise set the submitting
flag, invoke the callback, and settle. -/
def submitStep2 (cfg : UseFormConfig) (p : FormState × Bool) : SubmitResult :=
  match p.2, cfg.onSubmit with
  | false, _ => ⟨p.1, false⟩
  | true, none => ⟨p.1, false⟩
  | true, some .success => ⟨finishSuccess (startSubmitting p.1), true⟩
  | true, some (.failure e) => ⟨finishFailure (startSubmitting p.1) e, true⟩

/-- `handleSubmit` (useForm.ts lines 206–250), as one atomic transformer:
bump `submitCount`, replace `touched` by an all-true mapping over the keys of
`values`, run `validateForm`, then `submitStep2`.  Any callback failure is
absorbed into the state (the model is a total function: nothing propagates to
the caller). -/
def handleSubmit (cfg : UseFormConfig) (prev : FormState) : SubmitResult :=
  submitStep2 cfg
    (validateForm cfg.validationSchema
      { prev with
          submitCount := prev.submitCount + 1
          touched := markAllTouched prev.values })

/-! ### Association-list lemmas -/

theorem getKey_cons {α : Type} (k' : String) (v' : α) (rest : List (String × α))
    (k : String) :
    getKey ((k', v') :: rest) k = if k' = k then some v' else getKey rest k := by
  by_cases h : k' = k <;> simp [getKey, List.find?_cons, h]

theorem getKey_setKey_self {α : Type} (m : List (String × α)) (k : String) (v : α) :
    getKey (setKey m k v) k = some v := by
  induction m with
  | nil => simp [setKey, getKey_cons]
  | cons p rest ih =>
    obtain ⟨k1, v1⟩ := p
    by_cases h : k1 = k
    · subst h; simp [setKey, getKey_cons]
    · simp [setKey, h, getKey_cons, ih]

theorem getKey_setKey_ne {α : Type} (m : List (String × α)) (k k' : String) (v : α)
    (h : k' ≠ k) : getKey (setKey m k v) k' = getKey m k' := by
  induction m with
  | nil => simp [setKey, getKey_cons, Ne.symm h]
  | cons p rest ih =>
    obtain ⟨k1, v1⟩ := p
    by_cases hp : k1 = k
    · subst hp; simp [setKey, getKey_cons, Ne.symm h]
    · simp [setKey, hp, getKey_cons, ih]

theorem jsGet_setKey_self (m : List (String × Option String)) (k : String)
    (v : Option String) : jsGet (setKey m k v) k = v := by
  simp [jsGet, getKey_setKey_self]

theorem jsGet_setKey_ne (m : List (String × Option String)) (k k' : String)
    (v : Option String) (h : k' ≠ k) : jsGet (setKey m k v) k' = jsGet m k' := by
  simp [jsGet, getKey_setKey_ne m k k' v h]

/-! ### The per-field entry produced by the whole-form error walk -/

/-- The last issue in the ordered list whose leading path segment is `f`
(the precedence `validateWithSchema`'s overwrite loop actually implements). -/
def lastMatching (f : String) : List ZodIssue → Option ZodIssue
  | [] => none
  | i :: rest =>
    match lastMatching f rest with
    | some j => some j
    | none => if i.path.head? == some f then some i else none

theorem collectErrors_foldl (f : String) (hf : f ≠ "") :
    ∀ (issues : List ZodIssue) (acc : List (String × Option String)),
      getKey
        (issues.foldl
          (fun acc err =>
            match err.path.head? with
            | some p => if p == "" then acc else setKey acc p (some err.message)
            | none => acc)
          acc) f
      = match lastMatching f issues with
        | some i => some (some i.message)
        | none => getKey acc f := by
  intro issues
  induction issues with
  | nil => intro acc; simp [lastMatching]
  | cons i rest ih =>
    intro acc
    rw [List.foldl_cons, ih]
    cases hm : lastMatching f rest with
    | some j => simp [lastMatching, hm]
    | none =>
      simp only [lastMatching, hm]
      cases hp : i.path.head? with
      | none => simp [hp]
      | some p =>
        by_cases hpe : p = ""
        · subst hpe
          simp [hp, Ne.symm hf]
        · by_cases hpf : p = f
          · subst hpf
            simp [hp, hpe, getKey_setKey_self]
          · simp [hp, hpe, hpf, getKey_setKey_ne _ _ _ _ (Ne.symm hpf)]

theorem getKey_markAllTouched_aux (f : String) :
    ∀ (vs : List (String × JsValue)) (acc : List (String × Bool)),
      getKey (vs.foldl (fun acc p => setKey acc p.1 true) acc) f
      = if (getKey vs f).isSome then some true else getKey acc f := by
  intro vs
  induction vs with
  | nil => intro acc; simp [getKey]
  | cons p rest ih =>
    intro acc
    obtain ⟨k1, v1⟩ := p
    rw [List.foldl_cons, ih]
    by_cases h : k1 = f
    · subst h
      simp [getKey_cons, getKey_setKey_self]
    · simp [getKey_cons, h, getKey_setKey_ne _ _ _ _ (Ne.symm h)]

theorem getKey_markAllTouched (vs : List (String × JsValue)) (f : String)
    (h : (getKey vs f).isSome = true) :
    getKey (markAllTouched vs) f = some true := by
  unfold markAllTouched
  rw [getKey_markAllTouched_aux f vs [], if_pos h]

/-! ### Claims -/

/-- C1 (counterexample): the claim says whole-form validation records, for each
field, the message of the FIRST violation whose leading path segment is that
field, later violations being ignored.  On a schema rejecting with two ordered
violations for `email` — first message `"first msg"`, second `"second msg"` —
the first matching violation's message is `"first msg"`, yet
`validateWithSchema` records `"second msg"`: the overwrite loop lets the last
violation win. -/
theorem C1_claim_counterexample :
    ((([ZodIssue.mk ["email"] "first msg",
        ZodIssue.mk ["email"] "second msg"]).find?
          (fun i => i.path.head? == some "email")).map ZodIssue.message
        = some "first msg") ∧
    getKey (validateWithSchema
        (some (fun _ => ParseResult.zodError
          [ZodIssue.mk ["email"] "first msg",
           ZodIssue.mk ["email"] "second msg"])) []).fieldErrors "email"
      = some (some "second msg") := by
  exact ⟨rfl, rfl⟩

/-- C1 (amended): for every values object the configured schema rejects with an
ordered violation list, whole-form validation maps each field (with a nonempty
name) that has at least one violation to the message of the LAST violation in
the list whose leading path segment is that field — later violations for an
already-recorded field overwrite the recorded message — and leaves a field
absent when no violation names it. -/
theorem C1_amended_lastViolationWins (sch : Schema)
    (values : List (String × JsValue)) (issues : List ZodIssue) (f : String)
    (hs : sch values = ParseResult.zodError issues) (hf : f ≠ "") :
    getKey (validateWithSchema (some sch) values).fieldErrors f
      = (lastMatching f issues).map (fun i => some i.message) := by
  unfold validateWithSchema
  simp only [hs]
  rw [collectErrors_foldl f hf issues []]
  cases lastMatching f issues <;> simp [getKey]

/-- Witness for C1 (amended) at a schema rejecting with two ordered violations
for the field `a`: the recorded message is the second one. -/
theorem C1_amended_lastViolationWins_witness :
    getKey (validateWithSchema
        (some (fun _ => ParseResult.zodError
          [ZodIssue.mk ["a"] "m1", ZodIssue.mk ["a"] "m2"])) []).fieldErrors "a"
      = some (some "m2") := by
  have h := C1_amended_lastViolationWins
    (fun _ => ParseResult.zodError [ZodIssue.mk ["a"] "m1", ZodIssue.mk ["a"] "m2"])
    [] [ZodIssue.mk ["a"] "m1", ZodIssue.mk ["a"] "m2"] "a" rfl (by decide)
  exact h.trans rfl

/-- C2 (confirmed): with a schema configured that accepts the updated values
object, `setFieldValue` writes the value into `values[field]`, clears that
field's error, and sets `isValid = true` exactly when no field of the
resulting errors mapping holds a truthy message — so a previously recorded
error on a different field, even stale, forces `isValid = false`. -/
theorem C2_setFieldValue_success (sch : Schema) (s : FormState) (f : String)
    (v : JsValue) (h : sch (setKey s.values f v) = ParseResult.ok) :
    getKey (setFieldValue (some sch) s f v).values f = some v ∧
    (setFieldValue (some sch) s f v).values = setKey s.values f v ∧
    jsGet (setFieldValue (some sch) s f v).errors f = none ∧
    ((setFieldValue (some sch) s f v).isValid = true ↔
      ∀ p ∈ (setFieldValue (some sch) s f v).errors, truthy p.2 = false) := by
  have hEq : setFieldValue (some sch) s f v =
      { s with
          values := setKey s.values f v
          errors := setKey s.errors f none
          isValid := !((setKey s.errors f none).any (fun p => truthy p.2)) } := by
    unfold setFieldValue
    simp only [h]
  rw [hEq]
  refine ⟨getKey_setKey_self _ _ _, rfl, jsGet_setKey_self _ _ _, ?_⟩
  simp [List.any_eq_true]

/-- Witness for C2: an always-accepting schema, a state with a stale recorded
error on `y`; setting `x` writes the value, clears `x`'s error, and the stale
`y` error still forces `isValid = false`. -/
theorem C2_setFieldValue_success_witness :
    getKey (setFieldValue (some (fun _ => ParseResult.ok))
        ⟨[("x", JsValue.str "a"), ("y", JsValue.str "b")],
         [("y", some "bad")], [], false, false, 0, none⟩
        "x" (JsValue.str "ok")).values "x" = some (JsValue.str "ok") ∧
    jsGet (setFieldValue (some (fun _ => ParseResult.ok))
        ⟨[("x", JsValue.str "a"), ("y", JsValue.str "b")],
         [("y", some "bad")], [], false, false, 0, none⟩
        "x" (JsValue.str "ok")).errors "x" = none ∧
    (setFieldValue (some (fun _ => ParseResult.ok))
        ⟨[("x", JsValue.str "a"), ("y", JsValue.str "b")],
         [("y", some "bad")], [], false, false, 0, none⟩
        "x" (JsValue.str "ok")).isValid = false := by
  have h := C2_setFieldValue_success (fun _ => ParseResult.ok)
    ⟨[("x", JsValue.str "a"), ("y", JsValue.str "b")],
     [("y", some "bad")], [], false, false, 0, none⟩
    "x" (JsValue.str "ok") rfl
  exact ⟨h.1, h.2.2.1, by decide⟩

/-- C3 (counterexample): the claim says the failing `setFieldValue` records,
for the updated field, "the message of the first violation whose leading path
segment equals that field, or absent if no such violation exists".  On a
schema rejecting with a single violation for `f` whose message is the empty
string, a matching violation exists and its message is `""`, yet the recorded
entry is absent: `...?.message || undefined` collapses an empty message to
`undefined`. -/
theorem C3_claim_counterexample :
    (([ZodIssue.mk ["f"] ""].find?
        (fun i => i.path.head? == some "f")).map ZodIssue.message = some "") ∧
    jsGet (setFieldValue
        (some (fun _ => ParseResult.zodError [ZodIssue.mk ["f"] ""]))
        ⟨[], [], [], false, true, 0, none⟩ "f" (JsValue.str "x")).errors "f"
      = none := by
  exact ⟨rfl, rfl⟩

/-- C3 (amended): with a schema configured that rejects the updated values
object with a structured violation list, `setFieldValue` sets only the updated
field's error entry — to the message of the first violation whose leading path
segment equals that field when that message is nonempty, and to absent when
that message is empty or no such violation exists — leaves every other field's
error entry exactly as it was (they are not recomputed from the fresh failure
list), sets `isValid` to false unconditionally, and changes nothing else
beyond `values[field]`. -/
theorem C3_amended_setFieldValue_failure (sch : Schema) (s : FormState)
    (f : String) (v : JsValue) (issues : List ZodIssue)
    (h : sch (setKey s.values f v) = ParseResult.zodError issues) :
    (setFieldValue (some sch) s f v).values = setKey s.values f v ∧
    (∀ i, issues.find? (fun j => j.path.head? == some f) = some i →
      jsGet (setFieldValue (some sch) s f v).errors f
        = if i.message = "" then none else some i.message) ∧
    (issues.find? (fun j => j.path.head? == some f) = none →
      jsGet (setFieldValue (some sch) s f v).errors f = none) ∧
    (∀ g, g ≠ f →
      jsGet (setFieldValue (some sch) s f v).errors g = jsGet s.errors g) ∧
    (setFieldValue (some sch) s f v).isValid = false ∧
    (setFieldValue (some sch) s f v).touched = s.touched ∧
    (setFieldValue (some sch) s f v).isSubmitting = s.isSubmitting ∧
    (setFieldValue (some sch) s f v).submitCount = s.submitCount ∧
    (setFieldValue (some sch) s f v).submitError = s.submitError := by
  have hEq : setFieldValue (some sch) s f v =
      { s with
          values := setKey s.values f v
          errors :=
            setKey s.errors f
              (match issues.find? (fun err => err.path.head? == some f) with
               | some err => if err.message == "" then none else some err.message
               | none => none)
          isValid := false } := by
    unfold setFieldValue
    simp only [h]
  rw [hEq]
  refine ⟨rfl, ?_, ?_, ?_, rfl, rfl, rfl, rfl, rfl⟩
  · intro i hi
    rw [jsGet_setKey_self, hi]
    by_cases hm : i.message = "" <;> simp [hm]
  · intro hi
    rw [jsGet_setKey_self, hi]
  · intro g hg
    exact jsGet_setKey_ne _ _ _ _ hg

/-- Witness for C3 (amended): a schema rejecting with one violation for `e`
(message `"required"`); a stale error on `o` survives untouched, the `e` entry
becomes `"required"`, and validity is forced false. -/
theorem C3_amended_setFieldValue_failure_witness :
    jsGet (setFieldValue
        (some (fun _ => ParseResult.zodError [ZodIssue.mk ["e"] "required"]))
        ⟨[("e", JsValue.str "")], [("o", some "old")], [], false, true, 0, none⟩
        "e" (JsValue.str "x")).errors "e" = some "required" ∧
    jsGet (setFieldValue
        (some (fun _ => ParseResult.zodError [ZodIssue.mk ["e"] "required"]))
        ⟨[("e", JsValue.str "")], [("o", some "old")], [], false, true, 0, none⟩
        "e" (JsValue.str "x")).errors "o" = some "old" ∧
    (setFieldValue
        (some (fun _ => ParseResult.zodError [ZodIssue.mk ["e"] "required"]))
        ⟨[("e", JsValue.str "")], [("o", some "old")], [], false, true, 0, none⟩
        "e" (JsValue.str "x")).isValid = false := by
  have h := C3_amended_setFieldValue_failure
    (fun _ => ParseResult.zodError [ZodIssue.mk ["e"] "required"])
    ⟨[("e", JsValue.str "")], [("o", some "old")], [], false, true, 0, none⟩
    "e" (JsValue.str "x") [ZodIssue.mk ["e"] "required"] rfl
  refine ⟨(h.2.1 (ZodIssue.mk ["e"] "required") rfl).trans (by decide), ?_, h.2.2.2.2.1⟩
  exact (h.2.2.2.1 "o" (by decide)).trans rfl

/-- C4 (confirmed): `validateForm` replaces the entire errors mapping with the
mapping freshly computed from the current values, sets `isValid` to the result
of that validation and returns it, changing nothing else; whenever the
configured schema accepts the current values it returns true with an empty
errors mapping afterward, and with no schema configured it always returns true
with errors cleared. -/
theorem C4_validateForm_replaces (schema : Option Schema) (s : FormState) :
    (validateForm schema s).1.errors
      = (validateWithSchema schema s.values).fieldErrors ∧
    (validateForm schema s).1.isValid = (validateForm schema s).2 ∧
    (validateForm schema s).2 = (validateWithSchema schema s.values).isValid ∧
    (validateForm schema s).1.values = s.values ∧
    (validateForm schema s).1.touched = s.touched ∧
    (validateForm schema s).1.isSubmitting = s.isSubmitting ∧
    (validateForm schema s).1.submitCount = s.submitCount ∧
    (validateForm schema s).1.submitError = s.submitError ∧
    (∀ sch, schema = some sch → sch s.values = ParseResult.ok →
      (validateForm schema s).2 = true ∧ (validateForm schema s).1.errors = []) ∧
    (schema = none →
      (validateForm schema s).2 = true ∧ (validateForm schema s).1.errors = []) := by
  refine ⟨rfl, rfl, rfl, rfl, rfl, rfl, rfl, rfl, ?_, ?_⟩
  · intro sch hsch hok
    subst hsch
    unfold validateForm validateWithSchema
    simp [hok]
  · intro hnone
    subst hnone
    exact ⟨rfl, rfl⟩

/-- Witness for C4 at an always-accepting schema: `validateForm` returns true
and the errors mapping is empty. -/
theorem C4_validateForm_replaces_witness :
    (validateForm (some (fun _ => ParseResult.ok))
        ⟨[("a", JsValue.str "v")], [("a", some "stale")], [], false, false, 3,
         some "boom"⟩).2 = true ∧
    (validateForm (some (fun _ => ParseResult.ok))
        ⟨[("a", JsValue.str "v")], [("a", some "stale")], [], false, false, 3,
         some "boom"⟩).1.errors = [] := by
  exact (C4_validateForm_replaces (some (fun _ => ParseResult.ok))
    ⟨[("a", JsValue.str "v")], [("a", some "stale")], [], false, false, 3,
     some "boom"⟩).2.2.2.2.2.2.2.2.1 (fun _ => ParseResult.ok) rfl rfl

/-- C5 (confirmed): `handleChange` coerces the raw value before delegating to
`setFieldValue` under the event's name: a checkbox-kind input yields the
boolean checked state (a `JsValue.bool`, never a string), a number-kind input
with raw value `""` yields the string `""` (which is not a number value at
all, in particular neither `0` nor NaN), a number-kind input with any other
raw value yields `Number(value)`, and any other input kind yields the raw
string unchanged. -/
theorem C5_handleChange_coercion (schema : Option Schema) (s : FormState)
    (e : ChangeEvent) :
    handleChange schema s e = setFieldValue schema s e.name (coerceChangeValue e) ∧
    (e.type = "checkbox" → coerceChangeValue e = JsValue.bool e.checked) ∧
    (e.type = "number" → e.value = "" → coerceChangeValue e = JsValue.str "") ∧
    (e.type = "number" → e.value ≠ "" →
      coerceChangeValue e = JsValue.num (parseJsNumber e.value)) ∧
    (e.type ≠ "checkbox" → e.type ≠ "number" →
      coerceChangeValue e = JsValue.str e.value) ∧
    (∀ n, JsValue.str "" ≠ JsValue.num n) := by
  refine ⟨rfl, ?_, ?_, ?_, ?_, by simp⟩
  · intro h; simp [coerceChangeValue, h]
  · intro h hv; simp [coerceChangeValue, h, hv]
  · intro h hv; simp [coerceChangeValue, h, hv]
  · intro h1 h2; simp [coerceChangeValue, h1, h2]

/-- Witness for C5: clearing a number-kind input (`value = ""`) coerces to the
empty string, and delegation to `setFieldValue` holds. -/
theorem C5_handleChange_coercion_witness :
    handleChange none ⟨[], [], [], false, true, 0, none⟩
        ⟨"age", "", "number", false⟩
      = setFieldValue none ⟨[], [], [], false, true, 0, none⟩ "age"
          (coerceChangeValue ⟨"age", "", "number", false⟩) ∧
    coerceChangeValue ⟨"age", "", "number", false⟩ = JsValue.str "" := by
  have h := C5_handleChange_coercion none ⟨[], [], [], false, true, 0, none⟩
    ⟨"age", "", "number", false⟩
  exact ⟨h.1, h.2.2.1 rfl rfl⟩

/-- C6 (confirmed): for every state, whatever the prior mutation history that
produced it, `resetForm` restores `values` to the construction-time initial
values and resets errors, touched, `submitCount`, `submitError`,
`isSubmitting` and `isValid` to their construction-time defaults; composing
`resetForm` with itself equals a single `resetForm`. -/
theorem C6_resetForm_restores (cfg : UseFormConfig) (s : FormState) :
    resetForm cfg s = initialFormState cfg ∧
    (resetForm cfg s).values = cfg.initialValues ∧
    (resetForm cfg s).errors = [] ∧
    (resetForm cfg s).touched = [] ∧
    (resetForm cfg s).submitCount = 0 ∧
    (resetForm cfg s).submitError = none ∧
    (resetForm cfg s).isSubmitting = false ∧
    (resetForm cfg s).isValid = true ∧
    resetForm cfg (resetForm cfg s) = resetForm cfg s := by
  exact ⟨rfl, rfl, rfl, rfl, rfl, rfl, rfl, rfl, rfl⟩

/-- `submitStep2` never touches `submitCount` or `touched`. -/
theorem submitStep2_count_touched (cfg : UseFormConfig) (p : FormState × Bool) :
    (submitStep2 cfg p).state.submitCount = p.1.submitCount ∧
    (submitStep2 cfg p).state.touched = p.1.touched := by
  obtain ⟨st, b⟩ := p
  cases b
  · exact ⟨rfl, rfl⟩
  · cases ho : cfg.onSubmit with
    | none => simp [submitStep2, ho]
    | some o =>
      cases o <;>
        simp [submitStep2, ho, startSubmitting, finishSuccess, finishFailure]

/-- C7 (confirmed): every `handleSubmit` invocation increments `submitCount`
by exactly 1 — independently of the validation result, of whether a submit
callback is configured, and of the callback's outcome — and in the same step
marks every field name present in `values` as touched. -/
theorem C7_handleSubmit_count_touched (cfg : UseFormConfig) (s : FormState) :
    (handleSubmit cfg s).state.submitCount = s.submitCount + 1 ∧
    (∀ f, (getKey s.values f).isSome = true →
      getKey (handleSubmit cfg s).state.touched f = some true) := by
  have h := submitStep2_count_touched cfg
    (validateForm cfg.validationSchema
      { s with
          submitCount := s.submitCount + 1
          touched := markAllTouched s.values })
  refine ⟨h.1.trans rfl, ?_⟩
  intro f hf
  have h3 : (handleSubmit cfg s).state.touched = markAllTouched s.values :=
    h.2.trans rfl
  rw [h3]
  exact getKey_markAllTouched s.values f hf

/-- Witness for C7 at a failing-validation configuration with one field `a`:
the count is bumped and `a` is marked touched. -/
theorem C7_handleSubmit_count_touched_witness :
    (handleSubmit
        ⟨[], some (fun _ => ParseResult.zodError [ZodIssue.mk ["a"] "bad"]), none⟩
        ⟨[("a", JsValue.str "x")], [], [], false, true, 4, none⟩).state.submitCount
      = 5 ∧
    getKey (handleSubmit
        ⟨[], some (fun _ => ParseResult.zodError [ZodIssue.mk ["a"] "bad"]), none⟩
        ⟨[("a", JsValue.str "x")], [], [], false, true, 4, none⟩).state.touched "a"
      = some true := by
  have h := C7_handleSubmit_count_touched
    ⟨[], some (fun _ => ParseResult.zodError [ZodIssue.mk ["a"] "bad"]), none⟩
    ⟨[("a", JsValue.str "x")], [], [], false, true, 4, none⟩
  exact ⟨h.1, h.2 "a" (by decide)⟩

/-- C8 (confirmed): when validation of the current values fails, or when no
submit callback is configured, `handleSubmit` never invokes the callback and
never sets `isSubmitting` (it keeps its prior value, so it remains/ends false
when it started false), and beyond the `submitCount` bump, the touched
marking and the validation update of `errors`/`isValid`, no state changes:
`values` and `submitError` are untouched. -/
theorem C8_handleSubmit_skip (cfg : UseFormConfig) (s : FormState)
    (h : (validateWithSchema cfg.validationSchema s.values).isValid = false ∨
      cfg.onSubmit = none) :
    (handleSubmit cfg s).callbackInvoked = false ∧
    (handleSubmit cfg s).state.isSubmitting = s.isSubmitting ∧
    (s.isSubmitting = false → (handleSubmit cfg s).state.isSubmitting = false) ∧
    (handleSubmit cfg s).state.values = s.values ∧
    (handleSubmit cfg s).state.submitError = s.submitError ∧
    (handleSubmit cfg s).state.submitCount = s.submitCount + 1 ∧
    (handleSubmit cfg s).state.touched = markAllTouched s.values ∧
    (handleSubmit cfg s).state.errors
      = (validateWithSchema cfg.validationSchema s.values).fieldErrors ∧
    (handleSubmit cfg s).state.isValid
      = (validateWithSchema cfg.validationSchema s.values).isValid := by
  have hEq : handleSubmit cfg s =
      ⟨{ s with
          submitCount := s.submitCount + 1
          touched := markAllTouched s.values
          errors := (validateWithSchema cfg.validationSchema s.values).fieldErrors
          isValid := (validateWithSchema cfg.validationSchema s.values).isValid },
        false⟩ := by
    unfold handleSubmit validateForm submitStep2
    rcases h with h | h
    · simp [h]
    · cases hb : (validateWithSchema cfg.validationSchema s.values).isValid <;>
        simp [hb, h]
  rw [hEq]
  exact ⟨rfl, rfl, fun hh => hh, rfl, rfl, rfl, rfl, rfl, rfl⟩

/-- Witness for C8: a schema rejecting everything, with a configured callback;
the callback is not invoked, the submitting flag stays false, and `values`
and `submitError` are untouched. -/
theorem C8_handleSubmit_skip_witness :
    (handleSubmit
        ⟨[], some (fun _ => ParseResult.zodError [ZodIssue.mk ["a"] "bad"]),
         some SubmitOutcome.success⟩
        ⟨[("a", JsValue.str "x")], [], [], false, true, 0,
         some "earlier"⟩).callbackInvoked = false ∧
    (handleSubmit
        ⟨[], some (fun _ => ParseResult.zodError [ZodIssue.mk ["a"] "bad"]),
         some SubmitOutcome.success⟩
        ⟨[("a", JsValue.str "x")], [], [], false, true, 0,
         some "earlier"⟩).state.isSubmitting = false ∧
    (handleSubmit
        ⟨[], some (fun _ => ParseResult.zodError [ZodIssue.mk ["a"] "bad"]),
         some SubmitOutcome.success⟩
        ⟨[("a", JsValue.str "x")], [], [], false, true, 0,
         some "earlier"⟩).state.submitError = some "earlier" := by
  have h := C8_handleSubmit_skip
    ⟨[], some (fun _ => ParseResult.zodError [ZodIssue.mk ["a"] "bad"]),
     some SubmitOutcome.success⟩
    ⟨[("a", JsValue.str "x")], [], [], false, true, 0, some "earlier"⟩
    (Or.inl rfl)
  exact ⟨h.1, h.2.2.1 rfl, h.2.2.2.2.1⟩

/-- C9 (confirmed): when validation succeeds and a callback is configured,
`handleSubmit` invokes it and absorbs its outcome — the model is a total
function, so no failure propagates to the caller.  After the call settles
`isSubmitting` is false; a failure carrying a message (an `Error` object)
yields `submitError` equal to that message, a non-`Error` failure yields the
fixed fallback text, and a success leaves `submitError` absent. -/
theorem C9_handleSubmit_callback (cfg : UseFormConfig) (s : FormState)
    (o : SubmitOutcome)
    (hv : (validateWithSchema cfg.validationSchema s.values).isValid = true)
    (ho : cfg.onSubmit = some o) :
    (handleSubmit cfg s).callbackInvoked = true ∧
    (handleSubmit cfg s).state.isSubmitting = false ∧
    (o = SubmitOutcome.success → (handleSubmit cfg s).state.submitError = none) ∧
    (∀ e, o = SubmitOutcome.failure e →
      (handleSubmit cfg s).state.submitError = some (errorMessage e)) ∧
    (∀ m, errorMessage (JsError.errObj m) = m) ∧
    errorMessage JsError.nonError = "Form submission failed" := by
  refine ⟨?_, ?_, ?_, ?_, fun m => rfl, rfl⟩
  · unfold handleSubmit validateForm submitStep2
    cases o <;> simp [hv, ho]
  · unfold handleSubmit validateForm submitStep2
    cases o <;> simp [hv, ho, startSubmitting, finishSuccess, finishFailure]
  · intro h2
    subst h2
    unfold handleSubmit validateForm submitStep2
    simp [hv, ho, startSubmitting, finishSuccess]
  · intro e h2
    subst h2
    unfold handleSubmit validateForm submitStep2
    simp [hv, ho, startSubmitting, finishFailure]

/-- Witness for C9: a callback rejecting with an `Error` whose message is
`"network down"`; after the call settles `submitError` is `"network down"`
and `isSubmitting` is false. -/
theorem C9_handleSubmit_callback_witness :
    (handleSubmit
        ⟨[], none, some (SubmitOutcome.failure (JsError.errObj "network down"))⟩
        ⟨[], [], [], false, true, 0, none⟩).state.submitError
      = some "network down" ∧
    (handleSubmit
        ⟨[], none, some (SubmitOutcome.failure (JsError.errObj "network down"))⟩
        ⟨[], [], [], false, true, 0, none⟩).state.isSubmitting = false := by
  have h := C9_handleSubmit_callback
    ⟨[], none, some (SubmitOutcome.failure (JsError.errObj "network down"))⟩
    ⟨[], [], [], false, true, 0, none⟩
    (SubmitOutcome.failure (JsError.errObj "network down")) rfl rfl
  exact ⟨(h.2.2.2.1 (JsError.errObj "network down") rfl).trans rfl, h.2.1⟩

/-- C10 (confirmed): when the configured schema's parse fails with anything
other than a structured violation list, `setFieldValue` still writes the new
value, leaves `errors`, `isValid` and every other component exactly as before
(the model is a total function: nothing escapes to the caller), and under the
same failure `validateForm` reports false with an empty errors mapping. -/
theorem C10_setFieldValue_nonZodError (sch : Schema) (s : FormState)
    (f : String) (v : JsValue)
    (h : sch (setKey s.values f v) = ParseResult.otherError) :
    (setFieldValue (some sch) s f v).values = setKey s.values f v ∧
    (setFieldValue (some sch) s f v).errors = s.errors ∧
    (setFieldValue (some sch) s f v).isValid = s.isValid ∧
    (setFieldValue (some sch) s f v).touched = s.touched ∧
    (setFieldValue (some sch) s f v).isSubmitting = s.isSubmitting ∧
    (setFieldValue (some sch) s f v).submitCount = s.submitCount ∧
    (setFieldValue (some sch) s f v).submitError = s.submitError ∧
    (∀ (sch2 : Schema) (s2 : FormState),
      sch2 s2.values = ParseResult.otherError →
      (validateForm (some sch2) s2).2 = false ∧
      (validateForm (some sch2) s2).1.errors = [] ∧
      (validateForm (some sch2) s2).1.isValid = false) := by
  have hEq : setFieldValue (some sch) s f v
      = { s with values := setKey s.values f v } := by
    unfold setFieldValue
    simp only [h]
  rw [hEq]
  refine ⟨rfl, rfl, rfl, rfl, rfl, rfl, rfl, ?_⟩
  intro sch2 s2 h2
  unfold validateForm validateWithSchema
  simp [h2]

/-- Witness for C10: a schema that always throws a non-`ZodError`; the value
is written, the stale error and validity stay, and whole-form validation
reports false with empty errors. -/
theorem C10_setFieldValue_nonZodError_witness :
    (setFieldValue (some (fun _ => ParseResult.otherError))
        ⟨[("a", JsValue.str "x")], [("a", some "bad")], [], false, false, 0, none⟩
        "a" (JsValue.str "y")).values = [("a", JsValue.str "y")] ∧
    (setFieldValue (some (fun _ => ParseResult.otherError))
        ⟨[("a", JsValue.str "x")], [("a", some "bad")], [], false, false, 0, none⟩
        "a" (JsValue.str "y")).errors = [("a", some "bad")] ∧
    (validateForm (some (fun _ => ParseResult.otherError))
        ⟨[("a", JsValue.str "x")], [("a", some "bad")], [], false, false, 0, none⟩).2
      = false ∧
    (validateForm (some (fun _ => ParseResult.otherError))
        ⟨[("a", JsValue.str "x")], [("a", some "bad")], [], false, false, 0, none⟩).1.errors
      = [] := by
  have h := C10_setFieldValue_nonZodError (fun _ => ParseResult.otherError)
    ⟨[("a", JsValue.str "x")], [("a", some "bad")], [], false, false, 0, none⟩
    "a" (JsValue.str "y") rfl
  have h8 := h.2.2.2.2.2.2.2 (fun _ => ParseResult.otherError)
    ⟨[("a", JsValue.str "x")], [("a", some "bad")], [], false, false, 0, none⟩ rfl
  exact ⟨h.1.trans (by decide), h.2.1, h8.1, h8.2.1⟩

end UseForm
